import Mathlib

/-!
Verification of the public-worker blog API (Cloudflare Worker, JavaScript).

The development shallowly embeds the data model and the operations of the
repository layer (`src/repositories/postRepository.js`, the comment and tag
repositories), the service layer (`src/services/postService.js`,
`src/services/commentService.js`) and the cache utilities
(`src/utils/validation.js`, cache section) as executable Lean functions.
JavaScript strings are modelled by `String`, database tables by lists of
rows, thrown errors by `Except`, and the `UPDATE`/`INSERT` side effects by
explicit state passing on a `Store` value.
-/

/-- Equality of `Except` results is decidable, so concrete runs of the
embedded operations can be checked by `decide`. -/
instance {ε α : Type} [DecidableEq ε] [DecidableEq α] : DecidableEq (Except ε α) := fun x y =>
  match x, y with
  | .ok a, .ok b => decidable_of_iff (a = b) (by simp)
  | .error e, .error f => decidable_of_iff (e = f) (by simp)
  | .ok _, .error _ => .isFalse (by simp)
  | .error _, .ok _ => .isFalse (by simp)

namespace PublicWorker

/-- Lexicographic comparison of character lists, modelling the default
JavaScript string comparison used by `Array.prototype.sort()` and by SQL
`ORDER BY` on text columns. -/
def lexLe : List Char → List Char → Bool
  | [], _ => true
  | _ :: _, [] => false
  | a :: as, b :: bs => if a < b then true else if a = b then lexLe as bs else false

/-- Split a character list on a separator character, modelling
`String.prototype.split`. -/
def splitOnChar (sep : Char) : List Char → List (List Char)
  | [] => [[]]
  | c :: rest =>
    match splitOnChar sep rest with
    | [] => if c = sep then [[], []] else [[c]]
    | h :: t => if c = sep then [] :: h :: t else (c :: h) :: t

/-- `String.prototype.split` restricted to a one-character separator. -/
def splitStr (sep : Char) (s : String) : List String :=
  (splitOnChar sep s.data).map (fun l => ⟨l⟩)

/-- `Array.prototype.join(sep)`. -/
def joinSep (sep : String) : List String → String
  | [] => ""
  | [x] => x
  | x :: y :: rest => x ++ sep ++ joinSep sep (y :: rest)

/-- `String.prototype.toLowerCase` (ASCII fragment). -/
def lowerStr (s : String) : String := ⟨s.data.map Char.toLower⟩

/-- `String.prototype.toUpperCase` (ASCII fragment). -/
def upperStr (s : String) : String := ⟨s.data.map Char.toUpper⟩

/-- Numeric value of a list of decimal digit characters. -/
def digitsVal (ds : List Char) : Nat :=
  ds.foldl (fun acc c => acc * 10 + (c.toNat - 48)) 0

/-- The leading run of decimal digits, or `none` when there is none. -/
def leadDigits (cs : List Char) : Option Nat :=
  let ds := cs.takeWhile Char.isDigit
  if ds.isEmpty then none else some (digitsVal ds)

/-- JavaScript `parseInt(s, 10)`: skip leading whitespace, read an optional
sign and then the longest run of decimal digits; `NaN` (here `none`) when no
digit follows. -/
def parseIntJS (s : String) : Option Int :=
  match s.data.dropWhile Char.isWhitespace with
  | [] => none
  | c :: rest =>
    if c = '-' then (leadDigits rest).map (fun n => -(n : Int))
    else if c = '+' then (leadDigits rest).map (fun n => (n : Int))
    else (leadDigits (c :: rest)).map (fun n => (n : Int))

/-- Length of `s.trim()`, JavaScript whitespace trimming on both ends. -/
def trimmedLen (s : String) : Nat :=
  ((s.data.dropWhile Char.isWhitespace).reverse.dropWhile Char.isWhitespace).length

/-- The `state` column of the `posts` table. -/
inductive PostState
  | published
  | draft
deriving DecidableEq

/-- A row of the `posts` table. -/
structure Post where
  id : Int
  slug : String
  title : String
  content : String
  summary : String
  state : PostState
  views : Nat
  created_at : Nat
  updated_at : Nat
deriving DecidableEq

/-- A row of the `tags` table. -/
structure TagRow where
  id : Int
  name : String
  created_at : Nat
  post_count : Nat
deriving DecidableEq

/-- A row of the `comments` table. -/
structure CommentRow where
  id : String
  content : String
  author_name : String
  created_at : Nat
  post_id : Int
deriving DecidableEq

/-- The relational store shared by all repositories: `posts`, `tags`,
`post_tags` (postId, tagId) and `comments`. -/
structure Store where
  posts : List Post
  tags : List TagRow
  postTags : List (Int × Int)
  comments : List CommentRow
deriving DecidableEq

/-- The `INNER JOIN post_tags / tags ... WHERE t.name = ?` condition of
`PostRepository.findAll`: the post has some tag with the given name. -/
def rowMatchesTag (st : Store) (t : String) (p : Post) : Bool :=
  st.tags.any (fun tg => decide (tg.name = t) && decide ((p.id, tg.id) ∈ st.postTags))

/-- The `WHERE` clause of `PostRepository.findAll` and of
`PostRepository.count`: published posts, optionally restricted to a tag. -/
def findAllRows (st : Store) (tag : Option String) : List Post :=
  match tag with
  | some t =>
    st.posts.filter (fun p => rowMatchesTag st t p && decide (p.state = PostState.published))
  | none => st.posts.filter (fun p => decide (p.state = PostState.published))

/-- One comparison step of the SQL `ORDER BY` clause built by the service:
compare two post rows on one column. -/
def postKeyLe (field : String) (p q : Post) : Bool :=
  if field = "views" then decide (p.views ≤ q.views)
  else if field = "title" then lexLe p.title.data q.title.data
  else if field = "updated_at" then decide (p.updated_at ≤ q.updated_at)
  else decide (p.created_at ≤ q.created_at)

/-- `ORDER BY field dir` as a boolean relation on post rows. -/
def postOrderB (field dir : String) (p q : Post) : Bool :=
  if dir = "ASC" then postKeyLe field p q else postKeyLe field q p

/-- `PostRepository.findAll`: filter, `ORDER BY`, `LIMIT ? OFFSET ?`. -/
def findAll (st : Store) (tag : Option String) (offset limit : Nat) (field dir : String) :
    List Post :=
  ((List.insertionSort (fun p q => postOrderB field dir p q = true)
    (findAllRows st tag)).drop offset).take limit

/-- `PostRepository.count`: the total of matching published posts, no
pagination. -/
def countPosts (st : Store) (tag : Option String) : Nat :=
  (findAllRows st tag).length

/-- `PostRepository.findBySlug`: `WHERE slug = ? AND state = 'published'`. -/
def findBySlug (st : Store) (slug : String) : Option Post :=
  st.posts.find? (fun p => decide (p.slug = slug) && decide (p.state = PostState.published))

/-- `PostRepository.findById`: `WHERE id = ? AND state = 'published'`. -/
def findById (st : Store) (id : Int) : Option Post :=
  st.posts.find? (fun p => decide (p.id = id) && decide (p.state = PostState.published))

/-- The per-row effect of the `UPDATE` in `PostRepository.incrementViews`:
a row is bumped when it matches `id = ? AND state = 'published'`. -/
def bumpPost (id : Int) (p : Post) : Post :=
  if p.id = id ∧ p.state = PostState.published then { p with views := p.views + 1 } else p

/-- `PostRepository.incrementViews`:
`UPDATE posts SET views = views + 1 WHERE id = ? AND state = 'published'`. -/
def incrementViews (st : Store) (id : Int) : Store :=
  { st with posts := st.posts.map (bumpPost id) }

/-- `PostRepository.getViews`: `SELECT views FROM posts WHERE id = ?`.
Note: the query carries no `state` filter. -/
def getViews (st : Store) (id : Int) : Option Nat :=
  (st.posts.find? (fun p => decide (p.id = id))).map (fun p => p.views)

/-- `PostRepository.getTagsForPost`: the tag names of a post,
`ORDER BY t.name`. -/
def getTagsForPost (st : Store) (postId : Int) : List String :=
  (List.insertionSort (fun a b : TagRow => lexLe a.name.data b.name.data = true)
    (st.tags.filter (fun tg => decide ((postId, tg.id) ∈ st.postTags)))).map (fun tg => tg.name)

/-- `PostRepository.getTagsForPosts` followed by the service's
`tagsByPost.get(post.id) || []` lookup: tag names for each id in the batch,
empty for ids outside it. -/
def getTagsForPosts (st : Store) (postIds : List Int) (postId : Int) : List String :=
  if postId ∈ postIds then getTagsForPost st postId else []

/-- `CommentRepository.findByPostId`:
`WHERE post_id = ? ORDER BY created_at ASC`. -/
def commentsByPost (st : Store) (postId : Int) : List CommentRow :=
  List.insertionSort (fun a b : CommentRow => a.created_at ≤ b.created_at)
    (st.comments.filter (fun c => decide (c.post_id = postId)))

/-- `CommentRepository.create`: `INSERT INTO comments ...`. -/
def commentCreate (st : Store) (c : CommentRow) : Store :=
  { st with comments := st.comments ++ [c] }

/-- `CommentRepository.postExists`:
`SELECT id FROM posts WHERE id = ? AND state = 'published'` is non-null. -/
def postExists (st : Store) (postId : Int) : Bool :=
  (st.posts.find? (fun p => decide (p.id = postId) && decide (p.state = PostState.published))).isSome

/-- `TagRepository.findAllActive`:
`WHERE post_count > 0 ORDER BY name ASC`. -/
def findAllActive (st : Store) : List TagRow :=
  List.insertionSort (fun a b : TagRow => lexLe a.name.data b.name.data = true)
    (st.tags.filter (fun tg => decide (0 < tg.post_count)))

/-- `TagRepository.findAllPublishedSlugs`:
`SELECT slug FROM posts WHERE state = 'published' ORDER BY created_at DESC`. -/
def findAllPublishedSlugs (st : Store) : List String :=
  (List.insertionSort (fun a b : Post => b.created_at ≤ a.created_at)
    (st.posts.filter (fun p => decide (p.state = PostState.published)))).map (fun p => p.slug)

/-- The error taxonomy of `src/utils/errors.js` restricted to the kinds the
public surface raises: `ValidationError` and `NotFoundError`. -/
inductive ApiErr
  | validation (msg : String)
  | notFound (msg : String)
deriving DecidableEq

/-- The `status` field the error classes carry (400 and 404). -/
def ApiErr.status : ApiErr → Nat
  | .validation _ => 400
  | .notFound _ => 404

/-- Modelled from the spec: `validatePagination` is imported by
`PostService.getPosts` from `src/utils/validation.js` but its definition is
absent from the sources; the call sites show it returns a list of error
strings. Per the spec, `page` must be an integer at least 0 and `size` an
integer in `[1,100]`, each violation named after its parameter. -/
def validatePagination (page size : Int) : List String :=
  (if page < 0 then ["page must be a non-negative integer"] else []) ++
    (if size < 1 ∨ 100 < size then ["size must be between 1 and 100"] else [])

/-- Modelled from the spec: `validateSorting` is imported by
`PostService.getPosts` from `src/utils/validation.js` but its definition is
absent from the sources; the call sites show it takes the sort parameter and
the allowed field list and returns a list of error strings. Per the spec,
`sort` is `"field,direction"` with `field` among the allowed fields and
`direction` in `asc`/`desc` case-insensitively. -/
def validateSorting (sort : String) (allowedFields : List String) : List String :=
  let parts := splitStr ',' sort
  let field := parts.getD 0 ""
  let direction := parts.getD 1 ""
  (if field ∈ allowedFields then [] else ["sort field must be one of the allowed fields"]) ++
    (if lowerStr direction ∈ ["asc", "desc"] then []
     else ["sort direction must be asc or desc"])

/-- The camelCase-to-snake_case field mapping of `PostService.getPosts`
(`fieldMapping[sortField] || sortField`). -/
def fieldMapping (f : String) : String :=
  if f = "createdAt" then "created_at"
  else if f = "updatedAt" then "updated_at"
  else if f = "views" then "views"
  else if f = "title" then "title"
  else f

/-- A post as shaped by `PostService.getPosts` for the list response. -/
structure PostListItem where
  id : Int
  slug : String
  title : String
  summary : String
  tags : List String
  createdAt : Nat
  updatedAt : Nat
  views : Nat
deriving DecidableEq

/-- The paginated envelope returned by `PostService.getPosts`. -/
structure PageResp where
  content : List PostListItem
  totalElements : Nat
  pageNumber : Int
  pageSize : Int
deriving DecidableEq

/-- `PostService.getPosts`: validate pagination and sorting, fetch the page
and the unpaginated total, enrich with tags, shape the envelope. -/
def getPosts (st : Store) (tag : Option String) (page size : Int) (sort : String) :
    Except ApiErr PageResp :=
  let pagErrs := validatePagination page size
  if pagErrs ≠ [] then .error (.validation (joinSep ", " pagErrs))
  else
    let sortErrs := validateSorting sort ["createdAt", "updatedAt", "views", "title"]
    if sortErrs ≠ [] then .error (.validation (joinSep ", " sortErrs))
    else
      let parts := splitStr ',' sort
      let sortField := parts.getD 0 ""
      let sortDirection := parts.getD 1 ""
      let offset := (page * size).toNat
      let posts := findAll st tag offset size.toNat (fieldMapping sortField)
        (upperStr sortDirection)
      let totalElements := countPosts st tag
      let ids := posts.map (fun p => p.id)
      .ok
        { content := posts.map (fun p =>
            { id := p.id, slug := p.slug, title := p.title, summary := p.summary,
              tags := getTagsForPosts st ids p.id,
              createdAt := p.created_at, updatedAt := p.updated_at, views := p.views })
          totalElements := totalElements
          pageNumber := page
          pageSize := size }

/-- The full post detail shaped by `PostService.getPostBySlug`. -/
structure PostDetail where
  id : Int
  slug : String
  title : String
  content : String
  summary : String
  tags : List String
  createdAt : Nat
  updatedAt : Nat
  views : Nat
deriving DecidableEq

/-- The result of `PostService.getPostBySlug`: either redirect information
(`redirect: true` with the canonical slug, rendered by the handler as a 301
with `Location` ending in that slug) or the full detail. -/
inductive SlugResult
  | redirect (slug : String)
  | detail (d : PostDetail)
deriving DecidableEq

/-- The `/^\d+$/` test of `PostService.getPostBySlug`. -/
def isNumericSlug (s : String) : Bool :=
  !s.data.isEmpty && s.data.all Char.isDigit

/-- `PostService.getPostBySlug`: a numeric path segment is treated as a post
id and answered (when found among published posts) with redirect
information; otherwise the segment is a slug answered with the full
detail. -/
def getPostBySlug (st : Store) (slug : String) : Except ApiErr SlugResult :=
  if slug = "" then .error (.validation "Slug parameter is required")
  else if isNumericSlug slug then
    match findById st ((parseIntJS slug).getD 0) with
    | none => .error (.notFound "Post not found")
    | some post => .ok (.redirect post.slug)
  else
    match findBySlug st slug with
    | none => .error (.notFound "Post not found")
    | some post =>
      .ok (.detail
        { id := post.id, slug := post.slug, title := post.title,
          content := post.content, summary := post.summary,
          tags := getTagsForPost st post.id,
          createdAt := post.created_at, updatedAt := post.updated_at,
          views := post.views })

/-- `PostService.incrementPostViews`: parse the id, run the conditional
`UPDATE`, read the counter back, 404 when the read-back finds no row. The
resulting store is returned alongside the result. -/
def incrementPostViews (st : Store) (postId : String) : Except ApiErr Nat × Store :=
  if postId = "" then (.error (.validation "Post ID is required"), st)
  else
    match parseIntJS postId with
    | none => (.error (.validation "Invalid post ID"), st)
    | some id =>
      let st2 := incrementViews st id
      match getViews st2 id with
      | none => (.error (.notFound "Post not found"), st2)
      | some v => (.ok v, st2)

/-- A comment as shaped by `CommentService` responses. -/
structure CommentOut where
  id : String
  content : String
  authorName : String
  createdAt : Nat
  postId : Int
deriving DecidableEq

/-- The request body of `POST /comments/:postId`. -/
structure CommentData where
  content : String
  author : String
deriving DecidableEq

/-- `CommentService.getCommentsByPostId`: validate the id, check the post
exists and is published, return the shaped comments. -/
def getCommentsByPostId (st : Store) (postId : String) : Except ApiErr (List CommentOut) :=
  if postId = "" then .error (.validation "Post ID is required")
  else
    match parseIntJS postId with
    | none => .error (.validation "Invalid post ID")
    | some id =>
      if postExists st id then
        .ok ((commentsByPost st id).map (fun c =>
          { id := c.id, content := c.content, authorName := c.author_name,
            createdAt := c.created_at, postId := c.post_id }))
      else .error (.notFound "Post not found")

/-- The error entry naming the `content` field. -/
def contentLenMsg : String := "content must be between 1 and 500 characters"

/-- The error entry naming the `author` field. -/
def authorLenMsg : String := "author must be between 2 and 20 characters"

/-- Modelled from the spec: `validateCreateComment` is imported by
`CommentService.createComment` from `src/utils/validation.js` but its
definition is absent from the sources; the call sites show it returns a list
of error strings that the service joins with `", "`. Per the spec it checks
`content` for 1–500 characters and `author` for 2–20 characters after
trimming and reports every violated field, not just the first. -/
def validateCreateComment (data : CommentData) : List String :=
  (if trimmedLen data.content < 1 ∨ 500 < trimmedLen data.content then [contentLenMsg]
   else []) ++
    (if trimmedLen data.author < 2 ∨ 20 < trimmedLen data.author then [authorLenMsg]
     else [])

/-- `CommentService.createComment`: validate the id, check the post exists
and is published (404 before any body validation), validate the body,
insert the new row with the freshly generated UUID (`newId`) and timestamp
(`now`), and return the created comment. The resulting store is returned
alongside the result. -/
def createComment (st : Store) (postId : String) (data : CommentData)
    (newId : String) (now : Nat) : Except ApiErr CommentOut × Store :=
  if postId = "" then (.error (.validation "Post ID is required"), st)
  else
    match parseIntJS postId with
    | none => (.error (.validation "Invalid post ID"), st)
    | some id =>
      if postExists st id then
        let errs := validateCreateComment data
        if errs ≠ [] then (.error (.validation (joinSep ", " errs)), st)
        else
          (.ok { id := newId, content := data.content, authorName := data.author,
                 createdAt := now, postId := id },
            commentCreate st
              { id := newId, content := data.content, author_name := data.author,
                created_at := now, post_id := id })
      else (.error (.notFound "Post not found"), st)

/-- A key-value cache backend (`env.CACHE`): `get` may return a value, a
miss, or throw; `put` may succeed or throw. -/
structure CacheBackend where
  get : String → Except String (Option String)
  put : String → String → Nat → Except String Unit

/-- `generateCacheKey` from `src/utils/validation.js`: query parameters
sorted by key name, joined as `k=v&k=v` and appended to the path after `?`
(the bare path when there are no parameters). -/
def generateCacheKey (path : String) (params : List (String × String)) : String :=
  let sorted := List.insertionSort (fun a b : String × String => lexLe a.1.data b.1.data = true)
    params
  let joined := joinSep "&" (sorted.map (fun kv => kv.1 ++ "=" ++ kv.2))
  if joined = "" then path else path ++ "?" ++ joined

/-- `getCached`: a missing binding or a thrown read both yield `null`. -/
def getCached (cache : Option CacheBackend) (key : String) : Option String :=
  match cache with
  | none => none
  | some c =>
    match c.get key with
    | .error _ => none
    | .ok v => v

/-- `setCached` with its outcome made visible: the `try`/`catch` swallows a
thrown write, so the surrounding computation always continues normally. -/
def setCached (cache : Option CacheBackend) (key data : String) (ttl : Nat) :
    Except String Unit :=
  match cache with
  | none => .ok ()
  | some c =>
    match c.put key data ttl with
    | .error _ => .ok ()
    | .ok _ => .ok ()

/-- `withCache`: return the cached value when the read produced one,
otherwise fetch, best-effort write, and return the fetched data. -/
def withCache (cache : Option CacheBackend) (key : String) (dataFetcher : Unit → String)
    (ttl : Nat) : String :=
  match getCached cache key with
  | some v => v
  | none =>
    let data := dataFetcher ()
    match setCached cache key data ttl with
    | .ok _ => data
    | .error _ => data

/-! ### Demonstration data used by witnesses and counterexamples -/

/-- A published post with id 7 and 10 views. -/
def demoPost : Post :=
  { id := 7, slug := "hello-world", title := "Hello", content := "Body", summary := "Sum",
    state := .published, views := 10, created_at := 100, updated_at := 100 }

/-- A draft post with id 3 and 5 views. -/
def demoDraft : Post :=
  { id := 3, slug := "draft-post", title := "Draft", content := "Hidden", summary := "Hid",
    state := .draft, views := 5, created_at := 200, updated_at := 200 }

/-- A store holding one published and one draft post. -/
def demoStore : Store :=
  { posts := [demoPost, demoDraft], tags := [], postTags := [], comments := [] }

/-- A cache backend whose reads and writes always throw. -/
def failingBackend : CacheBackend :=
  { get := fun _ => .error "boom", put := fun _ _ _ => .error "boom" }

/-! ### General helper lemmas -/

/-- `find?` returns the unique element satisfying the predicate. -/
theorem find?_eq_some_unique {α : Type} (p : α → Bool) (a : α) :
    ∀ l : List α, a ∈ l → p a = true → (∀ b ∈ l, p b = true → b = a) →
      l.find? p = some a := by
  intro l
  induction l with
  | nil => intro h; exact absurd h (List.not_mem_nil a)
  | cons c t ih =>
    intro hmem hpa huniq
    by_cases hpc : p c = true
    · have hca : c = a := huniq c (List.mem_cons_self c t) hpc
      rw [List.find?_cons_of_pos _ hpc, hca]
    · have hmem' : a ∈ t := by
        rcases List.mem_cons.mp hmem with h | h
        · exact absurd (h ▸ hpa) hpc
        · exact h
      rw [List.find?_cons_of_neg _ (by simpa using hpc)]
      exact ih hmem' hpa (fun b hb hpb => huniq b (List.mem_cons_of_mem _ hb) hpb)

/-- Any element of a `findAll` result is one of the filtered rows. -/
theorem mem_findAllRows_of_mem_findAll {st : Store} {tag : Option String}
    {offset limit : Nat} {field dir : String} {p : Post}
    (h : p ∈ findAll st tag offset limit field dir) : p ∈ findAllRows st tag := by
  unfold findAll at h
  have h1 := (List.take_sublist _ _).mem h
  have h2 := (List.drop_sublist _ _).mem h1
  exact (List.mem_insertionSort _).mp h2

/-- Mapping a function that fixes every element of a list is the
identity. -/
theorem map_id_of_eq {α : Type} (f : α → α) :
    ∀ l : List α, (∀ a ∈ l, f a = a) → l.map f = l := by
  intro l
  induction l with
  | nil => intro _; rfl
  | cons a t ih =>
    intro h
    simp only [List.map_cons, h a (List.mem_cons_self a t),
      ih (fun b hb => h b (List.mem_cons_of_mem _ hb))]

/-- `bumpPost` never changes a row's id. -/
theorem bumpPost_id (id : Int) (p : Post) : (bumpPost id p).id = p.id := by
  unfold bumpPost
  split <;> rfl

/-! ### Claim C1 -/

/-- Claim C1 counterexample: the view-count read-back (`getViews`, backing
the public view-increment endpoint) returns a row of the draft post — its
query has no `state = 'published'` filter — so not every row returned to a
client comes from a published post. -/
theorem C1_counterexample :
    demoDraft ∈ demoStore.posts ∧ demoDraft.id = 3 ∧
      demoDraft.state ≠ PostState.published ∧
      getViews demoStore 3 = some 5 ∧
      incrementPostViews demoStore "3" = (.ok 5, demoStore) := by decide

/-- Claim C1 amended: the post list, the post detail by slug, the post
lookup by id, the comment post-existence check and the sitemap only ever
surface published posts; the view-count read-back is the exception, reading
the counter of any existing post regardless of state. -/
theorem C1_published_only :
    (∀ (st : Store) (tag : Option String) (offset limit : Nat) (field dir : String)
        (p : Post), p ∈ findAll st tag offset limit field dir →
      p.state = PostState.published) ∧
    (∀ (st : Store) (slug : String) (p : Post), findBySlug st slug = some p →
      p.state = PostState.published) ∧
    (∀ (st : Store) (id : Int) (p : Post), findById st id = some p →
      p.state = PostState.published) ∧
    (∀ (st : Store) (id : Int), postExists st id = true →
      ∃ p, p ∈ st.posts ∧ p.id = id ∧ p.state = PostState.published) ∧
    (∀ (st : Store) (s : String), s ∈ findAllPublishedSlugs st →
      ∃ p, p ∈ st.posts ∧ p.state = PostState.published ∧ p.slug = s) := by
  refine ⟨?_, ?_, ?_, ?_, ?_⟩
  · intro st tag offset limit field dir p hp
    have h := mem_findAllRows_of_mem_findAll hp
    unfold findAllRows at h
    cases tag with
    | none =>
      have h2 := (List.mem_filter.mp h).2
      simpa using h2
    | some t =>
      have h2 := (List.mem_filter.mp h).2
      simp only [Bool.and_eq_true, decide_eq_true_eq] at h2
      exact h2.2
  · intro st slug p h
    have h2 := List.find?_some h
    simp only [Bool.and_eq_true, decide_eq_true_eq] at h2
    exact h2.2
  · intro st id p h
    have h2 := List.find?_some h
    simp only [Bool.and_eq_true, decide_eq_true_eq] at h2
    exact h2.2
  · intro st id h
    unfold postExists at h
    obtain ⟨p, hp⟩ := Option.isSome_iff_exists.mp h
    have hmem := List.mem_of_find?_eq_some hp
    have hpred := List.find?_some hp
    simp only [Bool.and_eq_true, decide_eq_true_eq] at hpred
    exact ⟨p, hmem, hpred.1, hpred.2⟩
  · intro st s h
    unfold findAllPublishedSlugs at h
    obtain ⟨p, hp, rfl⟩ := List.mem_map.mp h
    have hp2 := (List.mem_insertionSort _).mp hp
    have hp3 := List.mem_filter.mp hp2
    exact ⟨p, hp3.1, by simpa using hp3.2, rfl⟩

/-- Witness for C1 at the demo store: the post found by slug is
published. -/
theorem C1_witness : demoPost.state = PostState.published :=
  C1_published_only.2.1 demoStore "hello-world" demoPost (by decide)

/-! ### Claim C2 -/

/-- Claim C2: for a post id that parses as an integer, the view increment
bumps the stored counter by one exactly when the post is published and
returns the read-back value; a nonexistent id yields not-found (404) with
the store unmutated; an existing unpublished post is left unchanged and its
stored counter is returned. -/
theorem C2_increment_views (st : Store) (postId : String) (id : Int)
    (hne : postId ≠ "") (hparse : parseIntJS postId = some id)
    (hnd : (st.posts.map (fun p => p.id)).Nodup) :
    (∀ p ∈ st.posts, p.id = id → p.state = PostState.published →
      incrementPostViews st postId = (.ok (p.views + 1), incrementViews st id)) ∧
    ((∀ p ∈ st.posts, p.id ≠ id) →
      incrementPostViews st postId = (.error (.notFound "Post not found"), st) ∧
        incrementViews st id = st ∧ (ApiErr.notFound "Post not found").status = 404) ∧
    (∀ p ∈ st.posts, p.id = id → p.state ≠ PostState.published →
      incrementPostViews st postId = (.ok p.views, st)) := by
  have huniq : ∀ p ∈ st.posts, ∀ q ∈ st.posts, p.id = q.id → p = q :=
    fun p hp q hq h => List.inj_on_of_nodup_map hnd hp hq h
  refine ⟨?_, ?_, ?_⟩
  · intro p hp hpid hpub
    have hbump : bumpPost id p = { p with views := p.views + 1 } := by
      unfold bumpPost
      rw [if_pos ⟨hpid, hpub⟩]
    have hfind : (st.posts.map (bumpPost id)).find? (fun q => decide (q.id = id)) =
        some { p with views := p.views + 1 } := by
      apply find?_eq_some_unique
      · rw [← hbump]
        exact List.mem_map_of_mem _ hp
      · simpa using hpid
      · intro b hb hpred
        obtain ⟨q, hq, rfl⟩ := List.mem_map.mp hb
        simp only [decide_eq_true_eq] at hpred
        rw [bumpPost_id] at hpred
        have hqp : q = p := huniq q hq p hp (hpred.trans hpid.symm)
        rw [hqp, hbump]
    have hgv : getViews (incrementViews st id) id = some (p.views + 1) := by
      simp [getViews, incrementViews, hfind]
    simp [incrementPostViews, hne, hparse, hgv]
  · intro hnone
    have hmap : st.posts.map (bumpPost id) = st.posts := by
      apply map_id_of_eq
      intro q hq
      unfold bumpPost
      rw [if_neg]
      rintro ⟨h1, _⟩
      exact hnone q hq h1
    have hst : incrementViews st id = st := by
      unfold incrementViews
      rw [hmap]
    have hgv : getViews st id = none := by
      have : st.posts.find? (fun q => decide (q.id = id)) = none :=
        List.find?_eq_none.mpr (by intro q hq; simp [hnone q hq])
      simp [getViews, this]
    refine ⟨?_, hst, rfl⟩
    simp [incrementPostViews, hne, hparse, hst, hgv]
  · intro p hp hpid hnpub
    have hmap : st.posts.map (bumpPost id) = st.posts := by
      apply map_id_of_eq
      intro q hq
      unfold bumpPost
      rw [if_neg]
      rintro ⟨h1, h2⟩
      have hqp : q = p := huniq q hq p hp (h1.trans hpid.symm)
      exact hnpub (hqp ▸ h2)
    have hst : incrementViews st id = st := by
      unfold incrementViews
      rw [hmap]
    have hfind : st.posts.find? (fun q => decide (q.id = id)) = some p := by
      apply find?_eq_some_unique _ _ _ hp (by simpa using hpid)
      intro b hb hpred
      simp only [decide_eq_true_eq] at hpred
      exact huniq b hb p hp (hpred.trans hpid.symm)
    have hgv : getViews st id = some p.views := by
      simp [getViews, hfind]
    simp [incrementPostViews, hne, hparse, hst, hgv]

/-- The demo store after one view increment on post 7. -/
def demoStoreInc : Store :=
  { posts := [{ demoPost with views := 11 }, demoDraft], tags := [], postTags := [],
    comments := [] }

/-- Witness for C2: two sequential increments on the published demo post
(views 10) read back 11 and then 12; a nonexistent id yields 404 and no
store mutation. -/
theorem C2_witness :
    incrementPostViews demoStore "7" = (.ok 11, demoStoreInc) ∧
      incrementPostViews demoStoreInc "7" =
        (.ok 12, { demoStoreInc with posts := [{ demoPost with views := 12 }, demoDraft] }) ∧
      incrementPostViews demoStore "99" = (.error (.notFound "Post not found"), demoStore) := by
  refine ⟨?_, ?_, ?_⟩
  · have h := (C2_increment_views demoStore "7" 7 (by decide) (by decide) (by decide)).1
      demoPost (by decide) rfl rfl
    rw [h]
    decide
  · have h := (C2_increment_views demoStoreInc "7" 7 (by decide) (by decide) (by decide)).1
      { demoPost with views := 11 } (by decide) rfl rfl
    rw [h]
    decide
  · have h := ((C2_increment_views demoStore "99" 99 (by decide) (by decide) (by decide)).2.1
      (by decide)).1
    rw [h]

/-! ### Claim C5 -/

/-- Claim C5 counterexample: the empty path segment is non-numeric and
matches no stored slug, yet `getPostBySlug` answers with a validation error
(status 400) rather than the claimed not-found. -/
theorem C5_counterexample :
    isNumericSlug "" = false ∧
      getPostBySlug demoStore "" = .error (.validation "Slug parameter is required") ∧
      (ApiErr.validation "Slug parameter is required").status = 400 ∧
      findBySlug demoStore "" = none := by decide

/-- Claim C5 amended: a segment of digits never yields post content — it
yields redirect information carrying the canonical slug when a published
post with that id exists and not-found otherwise (also when the post exists
but is unpublished); a non-empty non-numeric segment yields the full detail
of the published post with exactly that slug, or not-found when none exists
(the empty segment instead yields a validation failure). -/
theorem C5_slug_or_id (st : Store) (slug : String) :
    (∀ n : Int, isNumericSlug slug = true → parseIntJS slug = some n →
      (∀ d, getPostBySlug st slug ≠ .ok (.detail d)) ∧
      (∀ p, findById st n = some p →
        getPostBySlug st slug = .ok (.redirect p.slug) ∧ p.state = PostState.published) ∧
      (findById st n = none →
        getPostBySlug st slug = .error (.notFound "Post not found")) ∧
      ((∀ p ∈ st.posts, p.id = n → p.state ≠ PostState.published) →
        getPostBySlug st slug = .error (.notFound "Post not found"))) ∧
    (slug ≠ "" → isNumericSlug slug = false →
      (∀ p, findBySlug st slug = some p →
        getPostBySlug st slug = .ok (.detail
          { id := p.id, slug := p.slug, title := p.title, content := p.content,
            summary := p.summary, tags := getTagsForPost st p.id,
            createdAt := p.created_at, updatedAt := p.updated_at, views := p.views }) ∧
          p.state = PostState.published ∧ p.slug = slug) ∧
      (findBySlug st slug = none →
        getPostBySlug st slug = .error (.notFound "Post not found"))) := by
  constructor
  · intro n hnum hparse
    have hne : slug ≠ "" := by
      intro he
      rw [he] at hnum
      exact absurd hnum (by decide)
    have hnone_of : (∀ p ∈ st.posts, p.id = n → p.state ≠ PostState.published) →
        findById st n = none := by
      intro habs
      unfold findById
      apply List.find?_eq_none.mpr
      intro q hq
      simp only [Bool.and_eq_true, decide_eq_true_eq, not_and]
      intro hid hstate
      exact absurd hstate (habs q hq hid)
    refine ⟨?_, ?_, ?_, ?_⟩
    · intro d
      cases hfb : findById st n with
      | none => simp [getPostBySlug, hne, hnum, hparse, hfb]
      | some p => simp [getPostBySlug, hne, hnum, hparse, hfb]
    · intro p hfp
      have hpred := List.find?_some hfp
      simp only [Bool.and_eq_true, decide_eq_true_eq] at hpred
      exact ⟨by simp [getPostBySlug, hne, hnum, hparse, hfp], hpred.2⟩
    · intro hfb
      simp [getPostBySlug, hne, hnum, hparse, hfb]
    · intro habs
      simp [getPostBySlug, hne, hnum, hparse, hnone_of habs]
  · intro hne hnum
    refine ⟨?_, ?_⟩
    · intro p hfp
      have hpred := List.find?_some hfp
      simp only [Bool.and_eq_true, decide_eq_true_eq] at hpred
      exact ⟨by simp [getPostBySlug, hne, hnum, hfp], hpred.2, hpred.1⟩
    · intro hfb
      simp [getPostBySlug, hne, hnum, hfb]

/-- Witness for C5: the numeric segment `"7"` redirects to the canonical
slug and the slug segment returns the detail, on the demo store. -/
theorem C5_witness :
    getPostBySlug demoStore "7" = .ok (.redirect "hello-world") ∧
      getPostBySlug demoStore "hello-world" =
        .ok (.detail
          { id := 7, slug := "hello-world", title := "Hello", content := "Body",
            summary := "Sum", tags := getTagsForPost demoStore 7,
            createdAt := 100, updatedAt := 100, views := 10 }) := by
  constructor
  · exact ((C5_slug_or_id demoStore "7").1 7 (by decide) (by decide)).2.1 demoPost
      (by decide) |>.1
  · exact ((C5_slug_or_id demoStore "hello-world").2 (by decide) (by decide)).1 demoPost
      (by decide) |>.1

/-! ### Claim C7 -/

/-- Comparison by creation time is total. -/
instance : IsTotal CommentRow (fun a b => a.created_at ≤ b.created_at) :=
  ⟨fun a b => Nat.le_total a.created_at b.created_at⟩

/-- Comparison by creation time is transitive. -/
instance : IsTrans CommentRow (fun a b => a.created_at ≤ b.created_at) :=
  ⟨fun _ _ _ => Nat.le_trans⟩

/-- Claim C7 counterexample: the segment `"0"` parses as the integer 0,
which is not positive, yet the comment list answers not-found (404) rather
than the claimed validation failure. -/
theorem C7_counterexample :
    parseIntJS "0" = some 0 ∧ ¬(0 : Int) > 0 ∧
      getCommentsByPostId demoStore "0" = .error (.notFound "Post not found") ∧
      (ApiErr.notFound "Post not found").status = 404 := by decide

/-- Claim C7 amended: the comment list raises a validation failure exactly
when the segment is empty or does not parse as an integer; a parsed id whose
post is absent or unpublished yields not-found; otherwise the result is that
post's comments ordered by creation time ascending, shaped
`id, content, authorName, createdAt, postId`. -/
theorem C7_comment_list (st : Store) (postId : String) :
    (postId = "" ∨ parseIntJS postId = none →
      ∃ m, getCommentsByPostId st postId = .error (.validation m)) ∧
    (∀ id : Int, postId ≠ "" → parseIntJS postId = some id → postExists st id = false →
      getCommentsByPostId st postId = .error (.notFound "Post not found")) ∧
    (∀ id : Int, postId ≠ "" → parseIntJS postId = some id → postExists st id = true →
      getCommentsByPostId st postId =
          .ok ((commentsByPost st id).map (fun c =>
            { id := c.id, content := c.content, authorName := c.author_name,
              createdAt := c.created_at, postId := c.post_id })) ∧
        List.Pairwise (fun a b : CommentRow => a.created_at ≤ b.created_at)
          (commentsByPost st id) ∧
        (commentsByPost st id).Perm
          (st.comments.filter (fun c => decide (c.post_id = id))) ∧
        ∀ c ∈ commentsByPost st id, c.post_id = id) := by
  refine ⟨?_, ?_, ?_⟩
  · intro h
    by_cases hne : postId = ""
    · exact ⟨"Post ID is required", by simp [getCommentsByPostId, hne]⟩
    · have hnone : parseIntJS postId = none := h.resolve_left hne
      exact ⟨"Invalid post ID", by simp [getCommentsByPostId, hne, hnone]⟩
  · intro id hne hparse hpe
    simp [getCommentsByPostId, hne, hparse, hpe]
  · intro id hne hparse hpe
    refine ⟨by simp [getCommentsByPostId, hne, hparse, hpe], ?_, ?_, ?_⟩
    · exact List.sorted_insertionSort _ _
    · exact List.perm_insertionSort _ _
    · intro c hc
      have hc2 := (List.mem_insertionSort _).mp hc
      have hc3 := (List.mem_filter.mp hc2).2
      simpa using hc3

/-- Demo comments on post 7, inserted out of creation order. -/
def demoComment1 : CommentRow :=
  { id := "c1", content := "later", author_name := "al", created_at := 50, post_id := 7 }

/-- A second demo comment, created earlier. -/
def demoComment2 : CommentRow :=
  { id := "c2", content := "sooner", author_name := "bo", created_at := 20, post_id := 7 }

/-- The demo store with two comments on post 7. -/
def demoCStore : Store :=
  { posts := [demoPost, demoDraft], tags := [], postTags := [],
    comments := [demoComment1, demoComment2] }

/-- Witness for C7: the comments of post 7 come back ascending by creation
time and shaped for the API. -/
theorem C7_witness :
    getCommentsByPostId demoCStore "7" =
      .ok [{ id := "c2", content := "sooner", authorName := "bo", createdAt := 20, postId := 7 },
           { id := "c1", content := "later", authorName := "al", createdAt := 50, postId := 7 }] := by
  have h := ((C7_comment_list demoCStore "7").2.2 7 (by decide) (by decide) (by decide)).1
  rw [h]
  decide

/-! ### Claim C4 -/

/-- Claim C4: for any tag filter, any accepted sort and any valid
pagination, `getPosts` succeeds and its `totalElements` equals the
unpaginated count of matching published posts — hence it is identical for
any two valid `page`/`size` choices. -/
theorem C4_total_elements (st : Store) (tag : Option String) (sort : String)
    (page1 size1 page2 size2 : Int)
    (hp1 : 0 ≤ page1) (hs1 : 1 ≤ size1) (hs1h : size1 ≤ 100)
    (hp2 : 0 ≤ page2) (hs2 : 1 ≤ size2) (hs2h : size2 ≤ 100)
    (hsort : validateSorting sort ["createdAt", "updatedAt", "views", "title"] = []) :
    ∃ r1 r2, getPosts st tag page1 size1 sort = .ok r1 ∧
      getPosts st tag page2 size2 sort = .ok r2 ∧
      r1.totalElements = r2.totalElements ∧
      r1.totalElements = (findAllRows st tag).length := by
  have hval1 : validatePagination page1 size1 = [] := by
    unfold validatePagination
    rw [if_neg (by omega), if_neg (by omega)]
    rfl
  have hval2 : validatePagination page2 size2 = [] := by
    unfold validatePagination
    rw [if_neg (by omega), if_neg (by omega)]
    rfl
  simp only [getPosts, hval1, hval2, hsort]
  simp
  rfl

/-- Witness for C4 at the demo store with two different page/size pairs. -/
theorem C4_witness :
    ∃ r1 r2, getPosts demoStore none 0 10 "createdAt,desc" = .ok r1 ∧
      getPosts demoStore none 3 7 "createdAt,desc" = .ok r2 ∧
      r1.totalElements = r2.totalElements ∧
      r1.totalElements = (findAllRows demoStore none).length :=
  C4_total_elements demoStore none "createdAt,desc" 0 10 3 7 (by decide) (by decide)
    (by decide) (by decide) (by decide) (by decide) (by decide)

/-! ### Claim C9 -/

/-- Claim C9: a cache backend whose read throws makes the cached read
return the same result as a miss (`none`), and a backend whose write throws
still lets the cached write complete normally; a request wrapped in
`withCache` over a failing backend still produces the fetched data, so no
cache failure surfaces. -/
theorem C9_cache_best_effort :
    (∀ (c : CacheBackend) (key e : String), c.get key = .error e →
      getCached (some c) key = none ∧ getCached (some c) key = getCached none key) ∧
    (∀ (c : CacheBackend) (key data : String) (ttl : Nat),
      setCached (some c) key data ttl = .ok ()) ∧
    (∀ (c : CacheBackend) (key e : String) (dataFetcher : Unit → String) (ttl : Nat),
      c.get key = .error e → withCache (some c) key dataFetcher ttl = dataFetcher ()) := by
  refine ⟨?_, ?_, ?_⟩
  · intro c key e h
    simp [getCached, h]
  · intro c key data ttl
    cases h : c.put key data ttl <;> simp [setCached, h]
  · intro c key e dataFetcher ttl h
    simp [withCache, getCached, h]
    cases setCached (some c) key (dataFetcher ()) ttl <;> rfl

/-- Witness for C9 at a concrete always-throwing backend. -/
theorem C9_witness :
    getCached (some failingBackend) "k" = none ∧
      setCached (some failingBackend) "k" "v" 3600 = .ok () ∧
      withCache (some failingBackend) "k" (fun _ => "data") 3600 = "data" :=
  ⟨(C9_cache_best_effort.1 failingBackend "k" "boom" rfl).1,
    C9_cache_best_effort.2.1 failingBackend "k" "v" 3600,
    C9_cache_best_effort.2.2 failingBackend "k" "boom" (fun _ => "data") 3600 rfl⟩

/-! ### Claim C3 -/

/-- Claim C3: `createComment` against a post id that matches no published
post (nonexistent or draft) fails with not-found (status 404) for every
request body — so before any body validation — and leaves the store
unchanged. -/
theorem C3_create_comment_not_found (st : Store) (postId : String) (id : Int)
    (data : CommentData) (newId : String) (now : Nat)
    (hne : postId ≠ "") (hparse : parseIntJS postId = some id)
    (habsent : ∀ p ∈ st.posts, p.id = id → p.state ≠ PostState.published) :
    createComment st postId data newId now = (.error (.notFound "Post not found"), st) ∧
      (ApiErr.notFound "Post not found").status = 404 := by
  have hpe : postExists st id = false := by
    unfold postExists
    rw [List.find?_eq_none.mpr]
    · rfl
    · intro p hp
      simp only [Bool.and_eq_true, decide_eq_true_eq, not_and]
      intro hid hstate
      exact absurd hstate (habsent p hp hid)
  refine ⟨?_, rfl⟩
  simp [createComment, hne, hparse, hpe]

/-- Witness for C3: a valid body against the draft post still yields 404 and
no store change. -/
theorem C3_witness :
    createComment demoStore "3" { content := "hi", author := "bob" } "u1" 5 =
      (.error (.notFound "Post not found"), demoStore) :=
  (C3_create_comment_not_found demoStore "3" 3 { content := "hi", author := "bob" } "u1" 5
    (by decide) (by decide) (by decide)).1

/-! ### Claim C6 -/

/-- Claim C6: on an existing published post, `createComment` accepts the
body exactly when the trimmed `content` length is in 1–500 and the trimmed
`author` length is in 2–20; on rejection it raises a validation error
(status 400) whose error list names every violated field, not just the
first. -/
theorem C6_comment_validation (st : Store) (postId : String) (id : Int)
    (data : CommentData) (newId : String) (now : Nat)
    (hne : postId ≠ "") (hparse : parseIntJS postId = some id)
    (hpub : postExists st id = true) :
    ((createComment st postId data newId now).1.isOk = true ↔
      validateCreateComment data = []) ∧
    (validateCreateComment data = [] ↔
      (1 ≤ trimmedLen data.content ∧ trimmedLen data.content ≤ 500 ∧
        2 ≤ trimmedLen data.author ∧ trimmedLen data.author ≤ 20)) ∧
    (validateCreateComment data ≠ [] →
      (createComment st postId data newId now).1 =
          .error (.validation (joinSep ", " (validateCreateComment data))) ∧
        (ApiErr.validation (joinSep ", " (validateCreateComment data))).status = 400) ∧
    ((trimmedLen data.content < 1 ∨ 500 < trimmedLen data.content) ↔
      contentLenMsg ∈ validateCreateComment data) ∧
    ((trimmedLen data.author < 2 ∨ 20 < trimmedLen data.author) ↔
      authorLenMsg ∈ validateCreateComment data) := by
  refine ⟨?_, ?_, ?_, ?_, ?_⟩
  · by_cases hv : validateCreateComment data = [] <;>
      simp [createComment, hne, hparse, hpub, hv, Except.isOk, Except.toBool]
  · by_cases h1 : trimmedLen data.content < 1 ∨ 500 < trimmedLen data.content <;>
      by_cases h2 : trimmedLen data.author < 2 ∨ 20 < trimmedLen data.author <;>
      simp [validateCreateComment, h1, h2] <;> omega
  · intro hv
    refine ⟨?_, rfl⟩
    simp [createComment, hne, hparse, hpub, hv]
  · have hmsg : contentLenMsg ≠ authorLenMsg := by decide
    by_cases h1 : trimmedLen data.content < 1 ∨ 500 < trimmedLen data.content <;>
      by_cases h2 : trimmedLen data.author < 2 ∨ 20 < trimmedLen data.author <;>
      simp [validateCreateComment, h1, h2, hmsg, Ne.symm hmsg]
  · have hmsg : contentLenMsg ≠ authorLenMsg := by decide
    by_cases h1 : trimmedLen data.content < 1 ∨ 500 < trimmedLen data.content <;>
      by_cases h2 : trimmedLen data.author < 2 ∨ 20 < trimmedLen data.author <;>
      simp [validateCreateComment, h1, h2, hmsg, Ne.symm hmsg]

/-- Witness for C6: author `"a"` is rejected with a validation error naming
the author field, author `"ab"` is accepted, on the published demo post. -/
theorem C6_witness :
    ((createComment demoStore "7" { content := "hi", author := "a" } "u1" 5).1.isOk = false) ∧
      ((createComment demoStore "7" { content := "hi", author := "ab" } "u1" 5).1.isOk = true) ∧
      authorLenMsg ∈ validateCreateComment { content := "hi", author := "a" } := by
  have h1 := C6_comment_validation demoStore "7" 7 { content := "hi", author := "a" } "u1" 5
    (by decide) (by decide) (by decide)
  have h2 := C6_comment_validation demoStore "7" 7 { content := "hi", author := "ab" } "u1" 5
    (by decide) (by decide) (by decide)
  refine ⟨?_, ?_, ?_⟩
  · have := h1.1
    rw [show validateCreateComment { content := "hi", author := "a" } = [authorLenMsg]
      from by decide] at this
    simp at this
    simpa using this
  · exact h2.1.mpr (by decide)
  · exact h1.2.2.2.2.mp (by decide)

/-! ### Claim C10 -/

/-- Claim C10: an accepted `createComment` persists and returns `content`
and `author` exactly as submitted, with no trimming, even though validation
measured the trimmed lengths. -/
theorem C10_untrimmed_persistence (st : Store) (postId : String) (id : Int)
    (data : CommentData) (newId : String) (now : Nat)
    (hne : postId ≠ "") (hparse : parseIntJS postId = some id)
    (hpub : postExists st id = true) (hok : validateCreateComment data = []) :
    createComment st postId data newId now =
      (.ok { id := newId, content := data.content, authorName := data.author,
             createdAt := now, postId := id },
        { st with comments := st.comments ++
            [{ id := newId, content := data.content, author_name := data.author,
               created_at := now, post_id := id }] }) := by
  simp [createComment, hne, hparse, hpub, hok, commentCreate]

/-- Witness for C10: author `" ab "` (trimmed length 2) is accepted and both
stored and returned with its surrounding whitespace intact. -/
theorem C10_witness :
    trimmedLen " ab " = 2 ∧
      createComment demoStore "7" { content := "hi", author := " ab " } "u1" 5 =
        (.ok { id := "u1", content := "hi", authorName := " ab ", createdAt := 5, postId := 7 },
          { demoStore with comments :=
              [{ id := "u1", content := "hi", author_name := " ab ",
                 created_at := 5, post_id := 7 }] }) := by
  refine ⟨by decide, ?_⟩
  have h := C10_untrimmed_persistence demoStore "7" 7 { content := "hi", author := " ab " }
    "u1" 5 (by decide) (by decide) (by decide) (by decide)
  simpa [demoStore] using h

/-! ### Claim C8 -/

/-- Unfolding of `lexLe` on two nonempty lists. -/
theorem lexLe_cons (x y : Char) (xs ys : List Char) :
    lexLe (x :: xs) (y :: ys) = true ↔ (x < y ∨ (x = y ∧ lexLe xs ys = true)) := by
  by_cases h1 : x < y
  · simp [lexLe, h1]
  · by_cases h2 : x = y
    · simp [lexLe, h1, h2]
    · simp [lexLe, h1, h2]

/-- `lexLe` is total. -/
theorem lexLe_total : ∀ a b : List Char, lexLe a b = true ∨ lexLe b a = true := by
  intro a
  induction a with
  | nil => intro b; left; rfl
  | cons x xs ih =>
    intro b
    cases b with
    | nil => right; rfl
    | cons y ys =>
      rcases lt_trichotomy x y with h | h | h
      · left
        exact (lexLe_cons x y xs ys).mpr (Or.inl h)
      · subst h
        rcases ih ys with h2 | h2
        · left
          exact (lexLe_cons x x xs ys).mpr (Or.inr ⟨rfl, h2⟩)
        · right
          exact (lexLe_cons x x ys xs).mpr (Or.inr ⟨rfl, h2⟩)
      · right
        exact (lexLe_cons y x ys xs).mpr (Or.inl h)

/-- `lexLe` is transitive. -/
theorem lexLe_trans : ∀ a b c : List Char,
    lexLe a b = true → lexLe b c = true → lexLe a c = true := by
  intro a
  induction a with
  | nil => intro b c _ _; rfl
  | cons x xs ih =>
    intro b c hab hbc
    cases b with
    | nil => exact absurd hab (by simp [lexLe])
    | cons y ys =>
      cases c with
      | nil => exact absurd hbc (by simp [lexLe])
      | cons z zs =>
        rcases (lexLe_cons x y xs ys).mp hab with h1 | ⟨h1, h1r⟩
        · rcases (lexLe_cons y z ys zs).mp hbc with h2 | ⟨h2, _⟩
          · exact (lexLe_cons x z xs zs).mpr (Or.inl (lt_trans h1 h2))
          · exact (lexLe_cons x z xs zs).mpr (Or.inl (h2 ▸ h1))
        · rcases (lexLe_cons y z ys zs).mp hbc with h2 | ⟨h2, h2r⟩
          · exact (lexLe_cons x z xs zs).mpr (Or.inl (by rw [h1]; exact h2))
          · exact (lexLe_cons x z xs zs).mpr (Or.inr ⟨h1.trans h2, ih ys zs h1r h2r⟩)

/-- `lexLe` is antisymmetric. -/
theorem lexLe_antisymm : ∀ a b : List Char,
    lexLe a b = true → lexLe b a = true → a = b := by
  intro a
  induction a with
  | nil =>
    intro b hab hba
    cases b with
    | nil => rfl
    | cons y ys => exact absurd hba (by simp [lexLe])
  | cons x xs ih =>
    intro b hab hba
    cases b with
    | nil => exact absurd hab (by simp [lexLe])
    | cons y ys =>
      rcases (lexLe_cons x y xs ys).mp hab with h1 | ⟨h1, h1r⟩
      · rcases (lexLe_cons y x ys xs).mp hba with h2 | ⟨h2, _⟩
        · exact absurd h2 (lt_asymm h1)
        · exact absurd (h2 ▸ h1) (lt_irrefl y)
      · rcases (lexLe_cons y x ys xs).mp hba with h2 | ⟨_, h2r⟩
        · exact absurd (h1 ▸ h2) (lt_irrefl y)
        · rw [h1, ih ys h1r h2r]

/-- The key comparison used by `generateCacheKey` is total. -/
instance : IsTotal (String × String) (fun a b => lexLe a.1.data b.1.data = true) :=
  ⟨fun a b => lexLe_total a.1.data b.1.data⟩

/-- The key comparison used by `generateCacheKey` is transitive. -/
instance : IsTrans (String × String) (fun a b => lexLe a.1.data b.1.data = true) :=
  ⟨fun _ _ _ hab hbc => lexLe_trans _ _ _ hab hbc⟩

/-- Strict ordering of parameter pairs by key name. -/
def keyLt (a b : String × String) : Prop :=
  lexLe a.1.data b.1.data = true ∧ a.1 ≠ b.1

/-- `keyLt` is (vacuously) antisymmetric. -/
instance : IsAntisymm (String × String) keyLt :=
  ⟨fun a b hab hba => absurd (String.ext (lexLe_antisymm _ _ hab.1 hba.1)) hab.2⟩

/-- Key distinctness is symmetric. -/
theorem keyNeSymm : Symmetric (fun a b : String × String => a.1 ≠ b.1) :=
  fun _ _ h => Ne.symm h

/-- Sorting a distinct-keyed parameter list yields a strictly key-sorted
list. -/
theorem sortParams_sorted_keyLt (l : List (String × String))
    (hd : l.Pairwise (fun a b => a.1 ≠ b.1)) :
    (List.insertionSort (fun a b : String × String => lexLe a.1.data b.1.data = true)
      l).Pairwise keyLt := by
  have hs : (List.insertionSort (fun a b : String × String => lexLe a.1.data b.1.data = true)
      l).Pairwise (fun a b : String × String => lexLe a.1.data b.1.data = true) :=
    List.sorted_insertionSort _ l
  have hd2 : (List.insertionSort (fun a b : String × String => lexLe a.1.data b.1.data = true)
      l).Pairwise (fun a b => a.1 ≠ b.1) :=
    ((List.perm_insertionSort _ l).pairwise_iff @keyNeSymm).mpr hd
  exact (hs.and hd2).imp (fun h => h)

/-- Two permuted distinct-keyed parameter lists sort identically. -/
theorem sortParams_eq_of_perm (l1 l2 : List (String × String)) (hperm : l1.Perm l2)
    (hd1 : l1.Pairwise (fun a b => a.1 ≠ b.1)) :
    List.insertionSort (fun a b : String × String => lexLe a.1.data b.1.data = true) l1 =
      List.insertionSort (fun a b : String × String => lexLe a.1.data b.1.data = true) l2 := by
  have hd2 : l2.Pairwise (fun a b => a.1 ≠ b.1) := (hperm.pairwise_iff @keyNeSymm).mp hd1
  refine List.eq_of_perm_of_sorted (r := keyLt) ?_ ?_ ?_
  · exact (List.perm_insertionSort _ l1).trans (hperm.trans (List.perm_insertionSort _ l2).symm)
  · exact sortParams_sorted_keyLt l1 hd1
  · exact sortParams_sorted_keyLt l2 hd2

/-- Splitting a concatenation at the first occurrence of a separator
character absent from both prefixes is unambiguous. -/
theorem append_sep_inj (c : Char) :
    ∀ (a1 : List Char) {a2 b1 b2 : List Char}, c ∉ a1 → c ∉ a2 →
      a1 ++ c :: b1 = a2 ++ c :: b2 → a1 = a2 ∧ b1 = b2 := by
  intro a1
  induction a1 with
  | nil =>
    intro a2 b1 b2 _ h2 heq
    cases a2 with
    | nil =>
      simp only [List.nil_append] at heq
      refine ⟨rfl, ?_⟩
      injection heq
    | cons x t =>
      exfalso
      simp only [List.nil_append, List.cons_append] at heq
      injection heq with hcx _
      apply h2
      rw [hcx]
      exact List.mem_cons_self x t
  | cons x t ih =>
    intro a2 b1 b2 h1 h2 heq
    cases a2 with
    | nil =>
      exfalso
      simp only [List.nil_append, List.cons_append] at heq
      injection heq with hxc _
      apply h1
      rw [← hxc]
      exact List.mem_cons_self x t
    | cons y s =>
      simp only [List.cons_append] at heq
      injection heq with hxy hrest
      obtain ⟨ht, hb⟩ := ih (fun h => h1 (List.mem_cons_of_mem _ h))
        (fun h => h2 (List.mem_cons_of_mem _ h)) hrest
      exact ⟨by rw [hxy, ht], hb⟩

/-- The characters of a `k=v` part. -/
theorem partData (k v : String) : (k ++ "=" ++ v).data = k.data ++ '=' :: v.data := by
  rw [String.data_append, String.data_append, show ("=" : String).data = ['='] from rfl]
  simp

/-- A string with nonempty character data is not the empty string. -/
theorem strNeEmpty {s : String} (h : s.data ≠ []) : s ≠ "" :=
  fun he => h (by rw [he])

/-- Joining `&`-free parts with `&` is injective on nonempty part lists. -/
theorem joinSep_amp_inj :
    ∀ ps1 ps2 : List String, ps1 ≠ [] → ps2 ≠ [] →
      (∀ p ∈ ps1, '&' ∉ p.data) → (∀ p ∈ ps2, '&' ∉ p.data) →
      joinSep "&" ps1 = joinSep "&" ps2 → ps1 = ps2 := by
  intro ps1
  induction ps1 with
  | nil => intro ps2 h _ _ _ _; exact absurd rfl h
  | cons p1 t1 ih =>
    intro ps2 _ hne2 hf1 hf2 heq
    cases ps2 with
    | nil => exact absurd rfl hne2
    | cons p2 t2 =>
      cases t1 with
      | nil =>
        cases t2 with
        | nil =>
          simp only [joinSep] at heq
          rw [heq]
        | cons q2 s2 =>
          exfalso
          simp only [joinSep] at heq
          apply hf1 p1 (List.mem_cons_self _ _)
          rw [heq, String.data_append, String.data_append,
            show ("&" : String).data = ['&'] from rfl]
          simp
      | cons q1 s1 =>
        cases t2 with
        | nil =>
          exfalso
          simp only [joinSep] at heq
          apply hf2 p2 (List.mem_cons_self _ _)
          rw [← heq, String.data_append, String.data_append,
            show ("&" : String).data = ['&'] from rfl]
          simp
        | cons q2 s2 =>
          simp only [joinSep] at heq
          have hd := congrArg String.data heq
          rw [String.data_append, String.data_append, String.data_append,
            String.data_append, show ("&" : String).data = ['&'] from rfl] at hd
          rw [List.append_assoc, List.append_assoc] at hd
          simp only [List.singleton_append] at hd
          obtain ⟨hp, hj⟩ := append_sep_inj '&' p1.data
            (hf1 p1 (List.mem_cons_self _ _)) (hf2 p2 (List.mem_cons_self _ _)) hd
          have hrec := ih (q2 :: s2) (by simp) (by simp)
            (fun p hp' => hf1 p (List.mem_cons_of_mem _ hp'))
            (fun p hp' => hf2 p (List.mem_cons_of_mem _ hp')) (String.ext hj)
          rw [String.ext hp, hrec]

/-- A `k=v` part determines `k` and `v` when the keys are `=`-free. -/
theorem part_inj {k1 v1 k2 v2 : String} (h1 : '=' ∉ k1.data) (h2 : '=' ∉ k2.data)
    (heq : k1 ++ "=" ++ v1 = k2 ++ "=" ++ v2) : k1 = k2 ∧ v1 = v2 := by
  have hd := congrArg String.data heq
  rw [partData, partData] at hd
  obtain ⟨hk, hv⟩ := append_sep_inj '=' k1.data h1 h2 hd
  exact ⟨String.ext hk, String.ext hv⟩

/-- Mapping pairs to `k=v` parts is injective for `=`-free keys. -/
theorem parts_inj :
    ∀ l1 l2 : List (String × String),
      (∀ kv ∈ l1, '=' ∉ kv.1.data) → (∀ kv ∈ l2, '=' ∉ kv.1.data) →
      l1.map (fun kv => kv.1 ++ "=" ++ kv.2) = l2.map (fun kv => kv.1 ++ "=" ++ kv.2) →
      l1 = l2 := by
  intro l1
  induction l1 with
  | nil =>
    intro l2 _ _ h
    cases l2 with
    | nil => rfl
    | cons _ _ => simp at h
  | cons a t ih =>
    intro l2 hf1 hf2 h
    cases l2 with
    | nil => simp at h
    | cons b s =>
      simp only [List.map_cons, List.cons.injEq] at h
      obtain ⟨hab, hts⟩ := h
      obtain ⟨hk, hv⟩ := part_inj (hf1 a (List.mem_cons_self _ _))
        (hf2 b (List.mem_cons_self _ _)) hab
      have hab2 : a = b := Prod.ext hk hv
      rw [hab2, ih s (fun kv hkv => hf1 kv (List.mem_cons_of_mem _ hkv))
        (fun kv hkv => hf2 kv (List.mem_cons_of_mem _ hkv)) hts]

/-- Joining the parts of a nonempty parameter list never yields the empty
string. -/
theorem joined_parts_ne_empty (s : List (String × String)) (hs : s ≠ []) :
    joinSep "&" (s.map (fun kv => kv.1 ++ "=" ++ kv.2)) ≠ "" := by
  cases s with
  | nil => exact absurd rfl hs
  | cons a t =>
    cases t with
    | nil =>
      apply strNeEmpty
      simp only [List.map_cons, List.map_nil, joinSep, partData]
      simp
    | cons b r =>
      apply strNeEmpty
      simp only [List.map_cons, joinSep, String.data_append]
      simp [partData]

/-- `generateCacheKey` on an empty parameter map is the bare path. -/
theorem generateCacheKey_nil (path : String) : generateCacheKey path [] = path := rfl

/-- Sorting a nonempty list is nonempty. -/
theorem insertionSort_ne_nil (l : List (String × String)) (hl : l ≠ []) :
    List.insertionSort (fun a b : String × String => lexLe a.1.data b.1.data = true) l ≠ [] := by
  intro he
  have hp := List.perm_insertionSort
    (fun a b : String × String => lexLe a.1.data b.1.data = true) l
  rw [he] at hp
  exact hl hp.symm.eq_nil

/-- `generateCacheKey` on a nonempty parameter map is
`path ++ "?" ++ joined sorted parts`. -/
theorem generateCacheKey_cons (path : String) (l : List (String × String)) (hl : l ≠ []) :
    generateCacheKey path l = path ++ "?" ++ joinSep "&"
      ((List.insertionSort (fun a b : String × String => lexLe a.1.data b.1.data = true)
        l).map (fun kv => kv.1 ++ "=" ++ kv.2)) := by
  have hjne := joined_parts_ne_empty _ (insertionSort_ne_nil l hl)
  simp only [generateCacheKey]
  rw [if_neg hjne]

/-- Claim C8 counterexample: a parameter value containing the `&` and `=`
delimiters collides with a distinct two-parameter map on the same path, so
equal keys do not imply equal parameter maps in general. -/
theorem C8_counterexample :
    generateCacheKey "/p" [("a", "1&b=2")] = generateCacheKey "/p" [("a", "1"), ("b", "2")] ∧
      ¬ ([("a", "1&b=2")] : List (String × String)).Perm [("a", "1"), ("b", "2")] := by
  constructor
  · decide
  · intro h
    have := h.length_eq
    simp at this

/-- Claim C8 amended: the cache key is invariant under any permutation of a
distinct-keyed parameter map, and — provided the path contains no `?`, keys
contain no `&` or `=`, and values contain no `&` — equal keys arise only
from equal paths and permuted (i.e. equal) parameter maps. -/
theorem C8_cache_key :
    (∀ (path : String) (params1 params2 : List (String × String)),
      params1.Perm params2 →
      params1.Pairwise (fun a b => a.1 ≠ b.1) →
      generateCacheKey path params1 = generateCacheKey path params2) ∧
    (∀ (path1 path2 : String) (params1 params2 : List (String × String)),
      '?' ∉ path1.data → '?' ∉ path2.data →
      (∀ kv ∈ params1, '&' ∉ kv.1.data ∧ '=' ∉ kv.1.data ∧ '&' ∉ kv.2.data) →
      (∀ kv ∈ params2, '&' ∉ kv.1.data ∧ '=' ∉ kv.1.data ∧ '&' ∉ kv.2.data) →
      generateCacheKey path1 params1 = generateCacheKey path2 params2 →
      path1 = path2 ∧ params1.Perm params2) := by
  constructor
  · intro path params1 params2 hperm hd
    have hsorteq := sortParams_eq_of_perm params1 params2 hperm hd
    simp only [generateCacheKey, hsorteq]
  · intro path1 path2 params1 params2 hq1 hq2 hf1 hf2 heq
    cases params1 with
    | nil =>
      cases params2 with
      | nil =>
        rw [generateCacheKey_nil, generateCacheKey_nil] at heq
        exact ⟨heq, List.Perm.nil⟩
      | cons b s =>
        exfalso
        rw [generateCacheKey_nil, generateCacheKey_cons path2 (b :: s) (by simp)] at heq
        apply hq1
        rw [heq, String.data_append, String.data_append,
          show ("?" : String).data = ['?'] from rfl]
        simp
    | cons a t =>
      cases params2 with
      | nil =>
        exfalso
        rw [generateCacheKey_nil, generateCacheKey_cons path1 (a :: t) (by simp)] at heq
        apply hq2
        rw [← heq, String.data_append, String.data_append,
          show ("?" : String).data = ['?'] from rfl]
        simp
      | cons b s =>
        rw [generateCacheKey_cons path1 (a :: t) (by simp),
          generateCacheKey_cons path2 (b :: s) (by simp)] at heq
        have hd := congrArg String.data heq
        rw [String.data_append, String.data_append, String.data_append,
          String.data_append, show ("?" : String).data = ['?'] from rfl] at hd
        rw [List.append_assoc, List.append_assoc] at hd
        simp only [List.singleton_append] at hd
        obtain ⟨hpathd, hjd⟩ := append_sep_inj '?' path1.data hq1 hq2 hd
        have hampfree : ∀ (l : List (String × String)),
            (∀ kv ∈ l, '&' ∉ kv.1.data ∧ '=' ∉ kv.1.data ∧ '&' ∉ kv.2.data) →
            ∀ p ∈ (List.insertionSort
                (fun a b : String × String => lexLe a.1.data b.1.data = true) l).map
                  (fun kv => kv.1 ++ "=" ++ kv.2),
              '&' ∉ p.data := by
          intro l hf p hp
          obtain ⟨kv, hkv, rfl⟩ := List.mem_map.mp hp
          have hkv' : kv ∈ l := (List.mem_insertionSort _).mp hkv
          obtain ⟨hKamp, _, hVamp⟩ := hf kv hkv'
          rw [partData]
          intro hmem
          rcases List.mem_append.mp hmem with h | h
          · exact hKamp h
          · rcases List.mem_cons.mp h with h | h
            · exact absurd h (by decide)
            · exact hVamp h
        have hparts := joinSep_amp_inj _ _
          (by
            intro hmap
            exact insertionSort_ne_nil (a :: t) (by simp) (List.map_eq_nil.mp hmap))
          (by
            intro hmap
            exact insertionSort_ne_nil (b :: s) (by simp) (List.map_eq_nil.mp hmap))
          (hampfree (a :: t) hf1) (hampfree (b :: s) hf2) (String.ext hjd)
        have hsorted := parts_inj _ _
          (fun kv hkv => (hf1 kv ((List.mem_insertionSort _).mp hkv)).2.1)
          (fun kv hkv => (hf2 kv ((List.mem_insertionSort _).mp hkv)).2.1) hparts
        refine ⟨String.ext hpathd, ?_⟩
        exact (List.perm_insertionSort _ (a :: t)).symm.trans
          (by rw [hsorted]; exact List.perm_insertionSort _ (b :: s))

/-- Witness for C8: the two parameter orders of `?page=0&size=10` produce
the same cache key. -/
theorem C8_witness :
    generateCacheKey "/posts" [("page", "0"), ("size", "10")] =
      generateCacheKey "/posts" [("size", "10"), ("page", "0")] :=
  C8_cache_key.1 "/posts" [("page", "0"), ("size", "10")] [("size", "10"), ("page", "0")]
    (List.Perm.swap ("size", "10") ("page", "0") []) (by decide)

end PublicWorker
